import Mathlib

/-!
Verification development for the MCP multi-tool inspector server.

The definitions below are a shallow embedding of the Rust sources of the
repository (`tools/mcp-multi-tool/src`): the idempotency store
(`shared/idempotency.rs`), the error-budget circuit breaker
(`app/error_budget.rs`), the transactional outbox (`infra/outbox.rs`), the
stream collector (`app/inspector_service.rs`), the tool registry
(`app/registry.rs`) and the `inspector_call` orchestration of
(`adapters/server.rs`).

Modelling conventions:
- `std::time::Instant` (a monotonic clock) is a `Nat` of elapsed
  milliseconds; every operation that reads `Instant::now()` receives the
  current monotonic time as an explicit `now` argument, and
  `x.elapsed()` becomes `now - x` (saturating, as in Rust).
- `OffsetDateTime` / `SystemTime` (wall clocks) are `Int` milliseconds
  since the epoch.
- `f64` rates are embedded as `ℚ`; no claim below depends on rounding.
- `HashMap` is an association list with unique keys; insertion replaces
  the existing binding in place.
- `uuid::Uuid` values are `Nat` tokens; fresh UUIDv4 generation is
  environmental nondeterminism that no claim inspects, so freshly
  generated ids are embedded as `0`.
- `serde_json::Value` is the inductive `JsonVal` below.
-/

/-- Shallow model of `serde_json::Value`. -/
inductive JsonVal where
  | null
  | bool (b : Bool)
  | num (q : ℚ)
  | str (s : String)
  | arr (items : List JsonVal)
  | obj (fields : List (String × JsonVal))
deriving Repr

/-- Helper for serde `skip_serializing_if = "Option::is_none"` fields. -/
def optField (name : String) : Option JsonVal → List (String × JsonVal)
  | some v => [(name, v)]
  | none => []

/-- Embeds `shared/types.rs` `TargetDescriptor`. -/
structure TargetDescriptor where
  transport : String
  command : Option String
  url : Option String
  headers : Option (List (String × String))
deriving Repr, DecidableEq

/-- Embeds `shared/types.rs` `StdioTarget`. -/
structure StdioTarget where
  command : String
  args : List String
  env : Option (List (String × String))
  cwd : Option String
deriving Repr, DecidableEq

/-- Embeds `shared/types.rs` `SseTarget`. -/
structure SseTarget where
  url : String
  headers : Option (List (String × String))
  handshake_timeout_ms : Option Nat
deriving Repr, DecidableEq

/-- Embeds `shared/types.rs` `HttpTarget`. -/
structure HttpTarget where
  url : String
  headers : Option (List (String × String))
  auth_token : Option String
  handshake_timeout_ms : Option Nat
deriving Repr, DecidableEq

/-- Embeds `shared/types.rs` `CallRequest`.  The `stream` flag is read off its
uses in `adapters/server.rs` (`req.stream`) and
`app/inspector_service.rs` (`request.stream`). -/
structure CallRequest where
  tool_name : String
  arguments_json : JsonVal
  idempotency_key : Option String
  external_reference : Option String
  stream : Bool
  stdio : Option StdioTarget
  sse : Option SseTarget
  http : Option HttpTarget
deriving Repr

/-- Embeds `shared/types.rs` `InspectionRunEvent`. -/
structure InspectionRunEvent where
  event_id : Nat
  run_id : Nat
  tool_name : String
  state : String
  started_at : String
  duration_ms : Nat
  target : Option TargetDescriptor
  request : Option JsonVal
  response : Option JsonVal
  error : Option String
  idempotency_key : Option String
  external_reference : Option String
deriving Repr

/-- serde serialization of `TargetDescriptor`. -/
def targetToJson (t : TargetDescriptor) : JsonVal :=
  .obj ([("transport", .str t.transport)]
    ++ optField "command" (t.command.map .str)
    ++ optField "url" (t.url.map .str)
    ++ optField "headers" (t.headers.map (fun hs =>
          .obj (hs.map (fun kv => (kv.1, .str kv.2))))))

/-- serde serialization of `CallRequest` (`serde_json::to_value`); fields
marked `skip_serializing_if Option::is_none` are omitted when absent. -/
def callRequestToJson (r : CallRequest) : JsonVal :=
  .obj ([("tool_name", .str r.tool_name),
         ("arguments_json", r.arguments_json),
         ("idempotency_key", (r.idempotency_key.map JsonVal.str).getD .null),
         ("stream", .bool r.stream)]
    ++ optField "external_reference" (r.external_reference.map .str)
    ++ optField "stdio" (r.stdio.map (fun t => .str t.command))
    ++ optField "sse" (r.sse.map (fun t => .str t.url))
    ++ optField "http" (r.http.map (fun t => .str t.url)))

/- ## Association-list model of `HashMap` -/

/-- Embeds `HashMap::get`. -/
def alistLookup {α : Type} (k : String) : List (String × α) → Option α
  | [] => none
  | kv :: rest => if kv.1 = k then some kv.2 else alistLookup k rest

/-- Embeds `HashMap::insert`: replaces the binding in place, appends if absent. -/
def alistInsert {α : Type} (k : String) (v : α) : List (String × α) → List (String × α)
  | [] => [(k, v)]
  | kv :: rest => if kv.1 = k then (k, v) :: rest else kv :: alistInsert k v rest

/-- Keys of an association list. -/
def alistKeys {α : Type} (l : List (String × α)) : List String :=
  l.map Prod.fst

theorem alistLookup_insert_self {α : Type} (k : String) (v : α)
    (l : List (String × α)) : alistLookup k (alistInsert k v l) = some v := by
  induction l with
  | nil => simp [alistInsert, alistLookup]
  | cons kv rest ih =>
    by_cases h : kv.1 = k
    · simp [alistInsert, alistLookup, h]
    · simp [alistInsert, alistLookup, h, ih]

theorem alistLookup_insert_ne {α : Type} (k k' : String) (v : α)
    (l : List (String × α)) (h : k' ≠ k) :
    alistLookup k (alistInsert k' v l) = alistLookup k l := by
  induction l with
  | nil => simp [alistInsert, alistLookup, h]
  | cons kv rest ih =>
    by_cases hk : kv.1 = k'
    · simp [alistInsert, alistLookup, hk, h]
    · simp only [alistInsert, hk, if_false]
      by_cases hk2 : kv.1 = k
      · simp [alistLookup, hk2]
      · simp [alistLookup, hk2, ih]

/- ## Idempotency store (`shared/idempotency.rs`) -/

/-- Embeds `idempotency.rs` `InFlightRecord`. -/
structure InFlightRecord where
  claimed_at : Nat
  run_id : Option Nat
  request : Option CallRequest
  target : Option TargetDescriptor
  started_at : Option Int
deriving Repr

/-- Embeds `InFlightRecord::new()` at monotonic time `now`. -/
def InFlightRecord.mk_new (now : Nat) : InFlightRecord :=
  ⟨now, none, none, none, none⟩

/-- Embeds `idempotency.rs` `Record`. -/
inductive Record where
  | inFlight (r : InFlightRecord)
  | completed (claimed_at : Nat) (event : InspectionRunEvent)
deriving Repr

/-- Embeds `idempotency.rs` `ExternalRecord`. -/
structure ExternalRecord where
  recorded_at : Nat
  event : InspectionRunEvent
deriving Repr

/-- Embeds `idempotency.rs` `ReapedEvent`. -/
structure ReapedEvent where
  idempotency_key : String
  event : InspectionRunEvent
deriving Repr

/-- Embeds `idempotency.rs` `IdempotencyStore`. -/
structure IdempotencyStore where
  records : List (String × Record)
  external_refs : List (String × ExternalRecord)
deriving Repr

/-- Embeds `IdempotencyStore::new()`. -/
def IdempotencyStore.mk_new : IdempotencyStore := ⟨[], []⟩

/-- Embeds `idempotency.rs` `ClaimOutcome`. -/
inductive ClaimOutcome where
  | accepted
  | inFlight
  | completed (event : InspectionRunEvent)
deriving Repr

/-- Embeds `IdempotencyStore::claim`. -/
def IdempotencyStore.claim (s : IdempotencyStore) (key : String) (now : Nat) :
    ClaimOutcome × IdempotencyStore :=
  match alistLookup key s.records with
  | some (.inFlight _) => (.inFlight, s)
  | some (.completed _ event) => (.completed event, s)
  | none =>
    (.accepted,
      { s with records := alistInsert key (.inFlight (InFlightRecord.mk_new now)) s.records })

/-- Embeds `IdempotencyStore::begin`: `entry(key).or_insert_with(InFlight::new)`,
then attach `run_id`/`request` when the entry is `InFlight`. -/
def IdempotencyStore.start_run (s : IdempotencyStore) (key : String) (run_id : Nat)
    (request : CallRequest) (now : Nat) : IdempotencyStore :=
  match alistLookup key s.records with
  | some (.inFlight r) =>
    let r2 := { r with run_id := some run_id, request := some request }
    { s with records := alistInsert key (.inFlight r2) s.records }
  | some (.completed _ _) => s
  | none =>
    let r2 := { InFlightRecord.mk_new now with run_id := some run_id, request := some request }
    { s with records := alistInsert key (.inFlight r2) s.records }

/-- Embeds `IdempotencyStore::mark_started`. -/
def IdempotencyStore.mark_started (s : IdempotencyStore) (key : String)
    (started_at : Int) : IdempotencyStore :=
  match alistLookup key s.records with
  | some (.inFlight r) =>
    let r2 := { r with started_at := some started_at }
    { s with records := alistInsert key (.inFlight r2) s.records }
  | _ => s

/-- Embeds `IdempotencyStore::set_target`. -/
def IdempotencyStore.set_target (s : IdempotencyStore) (key : String)
    (target : TargetDescriptor) : IdempotencyStore :=
  match alistLookup key s.records with
  | some (.inFlight r) =>
    let r2 := { r with target := some target }
    { s with records := alistInsert key (.inFlight r2) s.records }
  | _ => s

/-- Embeds `IdempotencyStore::record_external_ref`. -/
def IdempotencyStore.record_external_ref (s : IdempotencyStore) (reference : String)
    (event : InspectionRunEvent) (now : Nat) : IdempotencyStore :=
  { s with external_refs := alistInsert reference ⟨now, event⟩ s.external_refs }

/-- Embeds `IdempotencyStore::find_external_ref`. -/
def IdempotencyStore.find_external_ref (s : IdempotencyStore) (reference : String) :
    Option InspectionRunEvent :=
  (alistLookup reference s.external_refs).map ExternalRecord.event

/-- Embeds `IdempotencyStore::complete`. -/
def IdempotencyStore.complete (s : IdempotencyStore) (key : String)
    (event : InspectionRunEvent) (now : Nat) : IdempotencyStore :=
  let s1 := { s with records := alistInsert key (.completed now event) s.records }
  match event.external_reference with
  | some reference => s1.record_external_ref reference event now
  | none => s1

/-- Embeds `idempotency.rs` `build_timeout_event`: requires `run_id` and
`request`, otherwise `None`. -/
def build_timeout_event (key : String) (record : InFlightRecord)
    (nowWall : Int) (nowMono : Nat) : Option InspectionRunEvent :=
  match record.run_id, record.request with
  | some run_id, some request =>
    let started_at := record.started_at.getD nowWall
    let duration : Int := max (nowWall - started_at) 0
    some
      { event_id := 0
        run_id := run_id
        tool_name := request.tool_name
        state := "failed"
        started_at := toString started_at
        duration_ms := duration.toNat
        target := record.target
        request := some (callRequestToJson request)
        response := none
        error := some ("run timed out after " ++ toString (nowMono - record.claimed_at)
          ++ " ms (idempotency key " ++ key ++ ")")
        idempotency_key := request.idempotency_key
        external_reference := request.external_reference }
  | _, _ => none

/-- The `store.retain` scan of `IdempotencyStore::reap_expired`: returns the
expired `InFlight` entries that produced a timeout event, and the retained
records.  Expired `InFlight` entries are removed whether or not an event
could be synthesised; `Completed` entries older than `ttl` are removed. -/
def reapScan (ttl nowMono : Nat) (nowWall : Int) :
    List (String × Record) → List (String × InspectionRunEvent) × List (String × Record)
  | [] => ([], [])
  | (key, .inFlight r) :: rest =>
    let tail := reapScan ttl nowMono nowWall rest
    if nowMono - r.claimed_at > ttl then
      match build_timeout_event key r nowWall nowMono with
      | some e => ((key, e) :: tail.1, tail.2)
      | none => tail
    else (tail.1, (key, .inFlight r) :: tail.2)
  | (key, .completed c e) :: rest =>
    let tail := reapScan ttl nowMono nowWall rest
    if nowMono - c ≤ ttl then (tail.1, (key, .completed c e) :: tail.2)
    else tail

/-- Embeds `IdempotencyStore::reap_expired`. -/
def IdempotencyStore.reap_expired (s : IdempotencyStore) (ttl nowMono : Nat)
    (nowWall : Int) : List ReapedEvent × IdempotencyStore :=
  let scan := reapScan ttl nowMono nowWall s.records
  let records := scan.1.foldl
    (fun acc ke => alistInsert ke.1 (.completed nowMono ke.2) acc) scan.2
  let results := scan.1.map (fun ke => ReapedEvent.mk ke.1 ke.2)
  let external := s.external_refs.filter (fun kv => nowMono - kv.2.recorded_at ≤ ttl)
  let s1 : IdempotencyStore := ⟨records, external⟩
  let s2 := results.foldl
    (fun acc r =>
      match r.event.external_reference with
      | some reference => acc.record_external_ref reference r.event nowMono
      | none => acc) s1
  (results, s2)

/-- A sequence of `claim(key)` calls at the given monotonic times,
threading the store. -/
def claimSeq (s : IdempotencyStore) (key : String) :
    List Nat → List ClaimOutcome × IdempotencyStore
  | [] => ([], s)
  | now :: rest =>
    let step := s.claim key now
    let tail := claimSeq step.2 key rest
    (step.1 :: tail.1, tail.2)

theorem alistLookup_eq_none_iff {α : Type} (k : String) (l : List (String × α)) :
    alistLookup k l = none ↔ k ∉ alistKeys l := by
  induction l with
  | nil => simp [alistLookup, alistKeys]
  | cons kv rest ih =>
    by_cases h : kv.1 = k
    · simp [alistLookup, alistKeys, h]
    · simp only [alistLookup, h, if_false, alistKeys, List.map_cons, List.mem_cons]
      rw [ih]
      constructor
      · intro hn hc
        rcases hc with hc | hc
        · exact h hc.symm
        · exact hn hc
      · intro hn
        exact fun hc => hn (Or.inr hc)

theorem claim_of_inFlight (s : IdempotencyStore) (key : String) (now : Nat)
    (r : InFlightRecord) (h : alistLookup key s.records = some (.inFlight r)) :
    s.claim key now = (.inFlight, s) := by
  simp [IdempotencyStore.claim, h]

theorem claim_of_completed (s : IdempotencyStore) (key : String) (now : Nat)
    (c : Nat) (e : InspectionRunEvent)
    (h : alistLookup key s.records = some (.completed c e)) :
    s.claim key now = (.completed e, s) := by
  simp [IdempotencyStore.claim, h]

theorem claimSeq_of_inFlight (s : IdempotencyStore) (key : String)
    (r : InFlightRecord) (h : alistLookup key s.records = some (.inFlight r))
    (nows : List Nat) :
    claimSeq s key nows = (List.replicate nows.length .inFlight, s) := by
  induction nows with
  | nil => simp [claimSeq]
  | cons now rest ih =>
    simp [claimSeq, claim_of_inFlight s key now r h, ih, List.replicate_succ]

theorem claimSeq_of_completed (s : IdempotencyStore) (key : String)
    (c : Nat) (e : InspectionRunEvent)
    (h : alistLookup key s.records = some (.completed c e))
    (nows : List Nat) :
    claimSeq s key nows = (List.replicate nows.length (.completed e), s) := by
  induction nows with
  | nil => simp [claimSeq]
  | cons now rest ih =>
    simp [claimSeq, claim_of_completed s key now c e h, ih, List.replicate_succ]

theorem complete_records (s : IdempotencyStore) (key : String)
    (e : InspectionRunEvent) (now : Nat) :
    (s.complete key e now).records = alistInsert key (.completed now e) s.records := by
  unfold IdempotencyStore.complete
  cases e.external_reference <;> simp [IdempotencyStore.record_external_ref]

/-- A concrete `CallRequest` used by concrete instantiations below. -/
def sampleRequest : CallRequest :=
  { tool_name := "echo"
    arguments_json := .obj [("text", .str "hi")]
    idempotency_key := some "k"
    external_reference := none
    stream := false
    stdio := none
    sse := none
    http := none }

/-- A concrete `InspectionRunEvent` used by concrete instantiations below. -/
def sampleEvent : InspectionRunEvent :=
  { event_id := 1
    run_id := 2
    tool_name := "echo"
    state := "captured"
    started_at := "0"
    duration_ms := 42
    target := none
    request := none
    response := none
    error := none
    idempotency_key := some "k"
    external_reference := none }

/-- C1: for a key with no record, among any sequence of `claim(key)` calls
with no intervening `complete`/reap, exactly the first returns `Accepted`
and all later calls return `InFlight`; after `complete(key, e)`, every
`claim(key)` returns `Completed(e)`. -/
theorem claim_single_winner (s : IdempotencyStore) (key : String)
    (h : alistLookup key s.records = none) (now : Nat) (rest : List Nat)
    (e : InspectionRunEvent) (tc : Nat) (laterNows : List Nat) :
    (claimSeq s key (now :: rest)).1
        = ClaimOutcome.accepted :: List.replicate rest.length ClaimOutcome.inFlight
    ∧ (claimSeq ((claimSeq s key (now :: rest)).2.complete key e tc) key laterNows).1
        = List.replicate laterNows.length (ClaimOutcome.completed e) := by
  have hstep : s.claim key now =
      (.accepted,
        { s with records :=
            alistInsert key (.inFlight (InFlightRecord.mk_new now)) s.records }) := by
    simp [IdempotencyStore.claim, h]
  set s1 : IdempotencyStore :=
    { s with records := alistInsert key (.inFlight (InFlightRecord.mk_new now)) s.records }
    with hs1
  have hlook1 : alistLookup key s1.records = some (.inFlight (InFlightRecord.mk_new now)) := by
    rw [hs1]
    exact alistLookup_insert_self key _ s.records
  have htail := claimSeq_of_inFlight s1 key _ hlook1 rest
  have hseq : claimSeq s key (now :: rest)
      = (ClaimOutcome.accepted :: List.replicate rest.length ClaimOutcome.inFlight, s1) := by
    simp [claimSeq, hstep, htail]
  refine ⟨by rw [hseq], ?_⟩
  rw [hseq]
  have hlook2 : alistLookup key (s1.complete key e tc).records = some (.completed tc e) := by
    rw [complete_records]
    exact alistLookup_insert_self key _ s1.records
  rw [claimSeq_of_completed (s1.complete key e tc) key tc e hlook2 laterNows]

/-- Witness for `claim_single_winner` at a concrete store and inputs. -/
theorem claim_single_winner_witness :
    (claimSeq IdempotencyStore.mk_new "k" [1, 2, 3]).1
        = [ClaimOutcome.accepted, ClaimOutcome.inFlight, ClaimOutcome.inFlight]
    ∧ (claimSeq
        ((claimSeq IdempotencyStore.mk_new "k" [1, 2, 3]).2.complete "k" sampleEvent 9)
        "k" [10, 11]).1
        = [ClaimOutcome.completed sampleEvent, ClaimOutcome.completed sampleEvent] :=
  claim_single_winner IdempotencyStore.mk_new "k" rfl 1 [2, 3] sampleEvent 9 [10, 11]

/-- C9 counterexample: `begin` on a key with no record at all is not a
no-op — it inserts a fresh `InFlight` record for the key (the Rust code
uses `entry(key).or_insert_with(InFlight::new)`), so the store's contents
change. -/
theorem begin_on_missing_key_not_noop :
    IdempotencyStore.start_run IdempotencyStore.mk_new "k" 7 sampleRequest 3
      ≠ IdempotencyStore.mk_new := by
  intro h
  have h2 := congrArg (fun s => alistLookup "k" s.records) h
  simp [IdempotencyStore.start_run, IdempotencyStore.mk_new, alistInsert,
    alistLookup] at h2

/-- C9 amended: `begin(key, run_id, request)` attaches run/request metadata
to an `InFlight` record and is a no-op when the record is `Completed`; but
for a key with no record at all it inserts a fresh `InFlight` record
carrying the metadata. -/
theorem begin_semantics (s : IdempotencyStore) (key : String) (rid : Nat)
    (req : CallRequest) (now : Nat) :
    (alistLookup key s.records = none →
      (s.start_run key rid req now).records
        = alistInsert key (.inFlight ⟨now, some rid, some req, none, none⟩) s.records)
    ∧ (∀ c e, alistLookup key s.records = some (.completed c e) →
        s.start_run key rid req now = s)
    ∧ (∀ r, alistLookup key s.records = some (.inFlight r) →
        (s.start_run key rid req now).records
          = alistInsert key
              (.inFlight { r with run_id := some rid, request := some req }) s.records) := by
  refine ⟨fun h => ?_, fun c e h => ?_, fun r h => ?_⟩
  · simp [IdempotencyStore.start_run, h, InFlightRecord.mk_new]
  · simp [IdempotencyStore.start_run, h]
  · simp [IdempotencyStore.start_run, h]

/-- Witness for `begin_semantics`: discharges each hypothesis at concrete
stores. -/
theorem begin_semantics_witness :
    ((IdempotencyStore.mk_new.start_run "k" 7 sampleRequest 3).records
      = alistInsert "k" (.inFlight ⟨3, some 7, some sampleRequest, none, none⟩) [])
    ∧ ((IdempotencyStore.mk IdempotencyStore.mk_new.records []).start_run "k" 7 sampleRequest 3).records
      = alistInsert "k" (.inFlight ⟨3, some 7, some sampleRequest, none, none⟩) [] := by
  refine ⟨(begin_semantics IdempotencyStore.mk_new "k" 7 sampleRequest 3).1 rfl, ?_⟩
  exact (begin_semantics IdempotencyStore.mk_new "k" 7 sampleRequest 3).1 rfl

theorem reapScan_expired_keys_sublist (ttl nowMono : Nat) (nowWall : Int)
    (l : List (String × Record)) :
    ((reapScan ttl nowMono nowWall l).1.map Prod.fst).Sublist (alistKeys l) := by
  induction l with
  | nil => simp [reapScan, alistKeys]
  | cons kv rest ih =>
    obtain ⟨k, rec⟩ := kv
    cases rec with
    | inFlight r =>
      by_cases hex : nowMono - r.claimed_at > ttl
      · cases hb : build_timeout_event k r nowWall nowMono with
        | some e =>
          simp only [reapScan, if_pos hex, hb]
          simpa [alistKeys] using ih.cons₂ k
        | none =>
          simp only [reapScan, if_pos hex, hb]
          simpa [alistKeys] using ih.cons k
      · simp only [reapScan, if_neg hex]
        simpa [alistKeys] using ih.cons k
    | completed c e =>
      by_cases hc : nowMono - c ≤ ttl
      · simp only [reapScan, if_pos hc]
        simpa [alistKeys] using ih.cons k
      · simp only [reapScan, if_neg hc]
        simpa [alistKeys] using ih.cons k

theorem reapScan_kept_keys_sublist (ttl nowMono : Nat) (nowWall : Int)
    (l : List (String × Record)) :
    (alistKeys (reapScan ttl nowMono nowWall l).2).Sublist (alistKeys l) := by
  induction l with
  | nil => simp [reapScan, alistKeys]
  | cons kv rest ih =>
    obtain ⟨k, rec⟩ := kv
    cases rec with
    | inFlight r =>
      by_cases hex : nowMono - r.claimed_at > ttl
      · cases hb : build_timeout_event k r nowWall nowMono with
        | some e =>
          simp only [reapScan, if_pos hex, hb]
          simpa [alistKeys] using ih.cons k
        | none =>
          simp only [reapScan, if_pos hex, hb]
          simpa [alistKeys] using ih.cons k
      · simp only [reapScan, if_neg hex]
        simpa [alistKeys] using ih.cons₂ k
    | completed c e =>
      by_cases hc : nowMono - c ≤ ttl
      · simp only [reapScan, if_pos hc]
        simpa [alistKeys] using ih.cons₂ k
      · simp only [reapScan, if_neg hc]
        simpa [alistKeys] using ih.cons k

theorem reapScan_inFlight_expired (ttl nowMono : Nat) (nowWall : Int)
    (l : List (String × Record)) (key : String) (r : InFlightRecord)
    (ev : InspectionRunEvent)
    (hnd : (alistKeys l).Nodup)
    (h : alistLookup key l = some (.inFlight r))
    (hex : nowMono - r.claimed_at > ttl)
    (hb : build_timeout_event key r nowWall nowMono = some ev) :
    (key, ev) ∈ (reapScan ttl nowMono nowWall l).1
    ∧ alistLookup key (reapScan ttl nowMono nowWall l).2 = none := by
  induction l with
  | nil => simp [alistLookup] at h
  | cons kv rest ih =>
    obtain ⟨k0, rec0⟩ := kv
    simp only [alistKeys, List.map_cons, List.nodup_cons] at hnd
    by_cases hk : k0 = key
    · subst hk
      simp only [alistLookup, if_pos rfl] at h
      injection h with h
      subst h
      simp only [reapScan, if_pos hex, hb]
      have hnotmem : k0 ∉ alistKeys (reapScan ttl nowMono nowWall rest).2 :=
        fun hc => hnd.1 ((reapScan_kept_keys_sublist ttl nowMono nowWall rest).subset hc)
      exact ⟨List.mem_cons_self _ _, (alistLookup_eq_none_iff _ _).2 hnotmem⟩
    · have h2 : alistLookup key rest = some (.inFlight r) := by
        simpa [alistLookup, hk] using h
      have ihr := ih hnd.2 h2
      cases rec0 with
      | inFlight r0 =>
        by_cases hex0 : nowMono - r0.claimed_at > ttl
        · cases hb0 : build_timeout_event k0 r0 nowWall nowMono with
          | some e0 =>
            simp only [reapScan, if_pos hex0, hb0]
            exact ⟨List.mem_cons_of_mem _ ihr.1, ihr.2⟩
          | none =>
            simp only [reapScan, if_pos hex0, hb0]
            exact ihr
        · simp only [reapScan, if_neg hex0]
          exact ⟨ihr.1, by simpa [alistLookup, hk] using ihr.2⟩
      | completed c0 e0 =>
        by_cases hc0 : nowMono - c0 ≤ ttl
        · simp only [reapScan, if_pos hc0]
          exact ⟨ihr.1, by simpa [alistLookup, hk] using ihr.2⟩
        · simp only [reapScan, if_neg hc0]
          exact ihr

theorem reapScan_completed_expired (ttl nowMono : Nat) (nowWall : Int)
    (l : List (String × Record)) (key : String) (t : Nat) (e : InspectionRunEvent)
    (hnd : (alistKeys l).Nodup)
    (h : alistLookup key l = some (.completed t e))
    (hex : ¬ nowMono - t ≤ ttl) :
    key ∉ (reapScan ttl nowMono nowWall l).1.map Prod.fst
    ∧ alistLookup key (reapScan ttl nowMono nowWall l).2 = none := by
  induction l with
  | nil => simp [alistLookup] at h
  | cons kv rest ih =>
    obtain ⟨k0, rec0⟩ := kv
    simp only [alistKeys, List.map_cons, List.nodup_cons] at hnd
    by_cases hk : k0 = key
    · subst hk
      simp only [alistLookup, if_pos rfl] at h
      injection h with h
      subst h
      simp only [reapScan, if_neg hex]
      constructor
      · intro hc
        exact hnd.1 ((reapScan_expired_keys_sublist ttl nowMono nowWall rest).subset hc)
      · refine (alistLookup_eq_none_iff _ _).2 fun hc => ?_
        exact hnd.1 ((reapScan_kept_keys_sublist ttl nowMono nowWall rest).subset hc)
    · have h2 : alistLookup key rest = some (.completed t e) := by
        simpa [alistLookup, hk] using h
      have ihr := ih hnd.2 h2
      cases rec0 with
      | inFlight r0 =>
        by_cases hex0 : nowMono - r0.claimed_at > ttl
        · cases hb0 : build_timeout_event k0 r0 nowWall nowMono with
          | some e0 =>
            simp only [reapScan, if_pos hex0, hb0]
            refine ⟨?_, ihr.2⟩
            simp only [List.map_cons, List.mem_cons]
            rintro (hc | hc)
            · exact hk hc.symm
            · exact ihr.1 hc
          | none =>
            simp only [reapScan, if_pos hex0, hb0]
            exact ihr
        · simp only [reapScan, if_neg hex0]
          exact ⟨ihr.1, by simpa [alistLookup, hk] using ihr.2⟩
      | completed c0 e0 =>
        by_cases hc0 : nowMono - c0 ≤ ttl
        · simp only [reapScan, if_pos hc0]
          exact ⟨ihr.1, by simpa [alistLookup, hk] using ihr.2⟩
        · simp only [reapScan, if_neg hc0]
          exact ihr

theorem foldl_insert_lookup_notmem (nowMono : Nat) (key : String)
    (exp : List (String × InspectionRunEvent)) :
    ∀ kept : List (String × Record), key ∉ exp.map Prod.fst →
      alistLookup key
        (exp.foldl (fun acc ke => alistInsert ke.1 (.completed nowMono ke.2) acc) kept)
        = alistLookup key kept := by
  induction exp with
  | nil => intro kept _; rfl
  | cons ke rest ih =>
    intro kept hmem
    simp only [List.map_cons, List.mem_cons] at hmem
    push_neg at hmem
    rw [List.foldl_cons, ih _ hmem.2,
      alistLookup_insert_ne key ke.1 _ kept (fun hc => hmem.1 hc.symm)]

theorem foldl_insert_lookup_mem (nowMono : Nat) (key : String)
    (ev : InspectionRunEvent) (exp : List (String × InspectionRunEvent)) :
    ∀ kept : List (String × Record), (key, ev) ∈ exp → (exp.map Prod.fst).Nodup →
      alistLookup key
        (exp.foldl (fun acc ke => alistInsert ke.1 (.completed nowMono ke.2) acc) kept)
        = some (.completed nowMono ev) := by
  induction exp with
  | nil => intro kept hmem; simp at hmem
  | cons ke rest ih =>
    intro kept hmem hnd
    obtain ⟨k1, v1⟩ := ke
    simp only [List.map_cons, List.nodup_cons] at hnd
    rcases List.mem_cons.1 hmem with hhd | htl
    · injection hhd with h1 h2
      subst h1
      subst h2
      rw [List.foldl_cons, foldl_insert_lookup_notmem nowMono _ rest _ hnd.1,
        alistLookup_insert_self]
    · rw [List.foldl_cons]
      exact ih _ htl hnd.2

/-- The external-reference indexing pass at the end of `reap_expired`
touches only `external_refs`. -/
theorem extref_foldl_records (now : Nat) (results : List ReapedEvent) :
    ∀ s : IdempotencyStore,
      (results.foldl
        (fun acc r =>
          match r.event.external_reference with
          | some reference => acc.record_external_ref reference r.event now
          | none => acc) s).records = s.records := by
  induction results with
  | nil => intro s; rfl
  | cons r rest ih =>
    intro s
    rw [List.foldl_cons]
    cases hr : r.event.external_reference with
    | some reference => rw [ih]; rfl
    | none => rw [ih]

theorem reap_expired_results (s : IdempotencyStore) (ttl nowMono : Nat) (nowWall : Int) :
    (s.reap_expired ttl nowMono nowWall).1
      = (reapScan ttl nowMono nowWall s.records).1.map
          (fun ke => ReapedEvent.mk ke.1 ke.2) := rfl

theorem reap_expired_records (s : IdempotencyStore) (ttl nowMono : Nat) (nowWall : Int) :
    (s.reap_expired ttl nowMono nowWall).2.records
      = (reapScan ttl nowMono nowWall s.records).1.foldl
          (fun acc ke => alistInsert ke.1 (.completed nowMono ke.2) acc)
          (reapScan ttl nowMono nowWall s.records).2 := by
  unfold IdempotencyStore.reap_expired
  exact extref_foldl_records nowMono _ _

theorem append_timed_out (x : String) :
    "run timed out after " ++ x = "run " ++ "timed out" ++ (" after " ++ x) := by
  rw [String.append_assoc]
  rfl

/-- C2 amended: for every key whose record is `InFlight` with `claimed_at`
elapsed beyond `ttl` *and on which `begin` attached `run_id` and
`request`*, `reap_expired` synthesises a failed event whose error contains
"timed out", replaces the entry with `Completed`, and returns it; the next
`claim` then observes `Completed`.  (An expired `InFlight` record on which
`begin` was never called is silently removed instead: see the
counterexample.) -/
theorem reap_expired_synthesises (s : IdempotencyStore) (ttl nowMono : Nat)
    (nowWall : Int) (key : String) (r : InFlightRecord) (rid : Nat)
    (req : CallRequest) (nowC : Nat)
    (hnd : (alistKeys s.records).Nodup)
    (h : alistLookup key s.records = some (.inFlight r))
    (hex : nowMono - r.claimed_at > ttl)
    (hrid : r.run_id = some rid) (hreq : r.request = some req) :
    ∃ ev, build_timeout_event key r nowWall nowMono = some ev
      ∧ ev.state = "failed"
      ∧ (∃ a b, ev.error = some (a ++ "timed out" ++ b))
      ∧ ReapedEvent.mk key ev ∈ (s.reap_expired ttl nowMono nowWall).1
      ∧ ((s.reap_expired ttl nowMono nowWall).2.claim key nowC).1
          = ClaimOutcome.completed ev := by
  cases hb : build_timeout_event key r nowWall nowMono with
  | none =>
    exfalso
    unfold build_timeout_event at hb
    rw [hrid, hreq] at hb
    simp at hb
  | some ev =>
    have hev : ev =
        { event_id := 0
          run_id := rid
          tool_name := req.tool_name
          state := "failed"
          started_at := toString (r.started_at.getD nowWall)
          duration_ms := (max (nowWall - r.started_at.getD nowWall) 0).toNat
          target := r.target
          request := some (callRequestToJson req)
          response := none
          error := some ("run timed out after " ++ toString (nowMono - r.claimed_at)
            ++ " ms (idempotency key " ++ key ++ ")")
          idempotency_key := req.idempotency_key
          external_reference := req.external_reference } := by
      unfold build_timeout_event at hb
      rw [hrid, hreq] at hb
      injection hb with hb
      exact hb.symm
    refine ⟨ev, rfl, by rw [hev], ?_, ?_, ?_⟩
    · refine ⟨"run ", " after " ++ (toString (nowMono - r.claimed_at)
        ++ (" ms (idempotency key " ++ (key ++ ")"))), ?_⟩
      rw [hev]
      simp only [Option.some.injEq]
      rw [String.append_assoc, String.append_assoc, String.append_assoc]
      exact append_timed_out _
    · obtain ⟨hmem, _⟩ :=
        reapScan_inFlight_expired ttl nowMono nowWall s.records key r ev hnd h hex hb
      rw [reap_expired_results]
      exact List.mem_map_of_mem _ hmem
    · obtain ⟨hmem, _⟩ :=
        reapScan_inFlight_expired ttl nowMono nowWall s.records key r ev hnd h hex hb
      have hndexp : ((reapScan ttl nowMono nowWall s.records).1.map Prod.fst).Nodup :=
        (reapScan_expired_keys_sublist ttl nowMono nowWall s.records).nodup hnd
      have hlook :
          alistLookup key (s.reap_expired ttl nowMono nowWall).2.records
            = some (.completed nowMono ev) := by
        rw [reap_expired_records]
        exact foldl_insert_lookup_mem nowMono key ev _ _ hmem hndexp
      simp [IdempotencyStore.claim, hlook]

/-- Witness for `reap_expired_synthesises`: a concrete store holding one
begun `InFlight` record whose TTL has elapsed. -/
theorem reap_expired_synthesises_witness :
    ∃ ev, build_timeout_event "k"
        ⟨0, some 2, some sampleRequest, none, some 0⟩ 10 10 = some ev
      ∧ ev.state = "failed"
      ∧ (∃ a b, ev.error = some (a ++ "timed out" ++ b))
      ∧ ReapedEvent.mk "k" ev ∈
          ((⟨[("k", .inFlight ⟨0, some 2, some sampleRequest, none, some 0⟩)],
            []⟩ : IdempotencyStore).reap_expired 5 10 10).1
      ∧ (((⟨[("k", .inFlight ⟨0, some 2, some sampleRequest, none, some 0⟩)],
            []⟩ : IdempotencyStore).reap_expired 5 10 10).2.claim "k" 11).1
          = ClaimOutcome.completed ev :=
  reap_expired_synthesises
    ⟨[("k", .inFlight ⟨0, some 2, some sampleRequest, none, some 0⟩)], []⟩
    5 10 10 "k" ⟨0, some 2, some sampleRequest, none, some 0⟩ 2 sampleRequest 11
    (by simp [alistKeys]) rfl (by decide) rfl rfl

/-- C2 counterexample: an expired `InFlight` record on which `begin` was
never called (`run_id`/`request` unset) is *not* replaced with `Completed`
and is *not* returned by `reap_expired`; it is silently dropped, and the
key's next `claim` is `Accepted`, not `Completed`. -/
theorem reap_expired_skips_unbegun :
    ((⟨[("k", .inFlight (InFlightRecord.mk_new 0))], []⟩ :
        IdempotencyStore).reap_expired 5 10 0).1 = []
    ∧ (((⟨[("k", .inFlight (InFlightRecord.mk_new 0))], []⟩ :
        IdempotencyStore).reap_expired 5 10 0).2.claim "k" 11).1
        = ClaimOutcome.accepted := by
  exact ⟨rfl, rfl⟩

/-- C10: the TTL is enforced only by `reap_expired`, never by `claim`: a
`Completed` record answers `Completed(event)` to `claim` no matter how old
it is (and leaves the store unchanged); only after a `reap_expired` whose
`ttl` the record has outlived can the key be `Accepted` anew. -/
theorem completed_claim_ignores_ttl (s : IdempotencyStore) (key : String)
    (t : Nat) (e : InspectionRunEvent) (nowC ttl nowMono : Nat) (nowWall : Int)
    (nowC2 : Nat)
    (hnd : (alistKeys s.records).Nodup)
    (h : alistLookup key s.records = some (.completed t e)) :
    s.claim key nowC = (ClaimOutcome.completed e, s)
    ∧ (nowMono - t > ttl →
        ((s.reap_expired ttl nowMono nowWall).2.claim key nowC2).1
          = ClaimOutcome.accepted) := by
  refine ⟨claim_of_completed s key nowC t e h, fun hex => ?_⟩
  obtain ⟨hnotmem, hkept⟩ :=
    reapScan_completed_expired ttl nowMono nowWall s.records key t e hnd h (by omega)
  have hlook : alistLookup key (s.reap_expired ttl nowMono nowWall).2.records = none := by
    rw [reap_expired_records, foldl_insert_lookup_notmem nowMono key _ _ hnotmem]
    exact hkept
  simp [IdempotencyStore.claim, hlook]

/-- Witness for `completed_claim_ignores_ttl`: a record completed at
monotonic time 0 still answers `Completed` to `claim` at time 1000000,
far beyond a ttl of 5; after `reap_expired 5` at time 10, the key is
accepted anew. -/
theorem completed_claim_ignores_ttl_witness :
    (⟨[("k", .completed 0 sampleEvent)], []⟩ : IdempotencyStore).claim "k" 1000000
      = (ClaimOutcome.completed sampleEvent,
          ⟨[("k", .completed 0 sampleEvent)], []⟩)
    ∧ (((⟨[("k", .completed 0 sampleEvent)], []⟩ :
          IdempotencyStore).reap_expired 5 10 0).2.claim "k" 11).1
        = ClaimOutcome.accepted :=
  ⟨(completed_claim_ignores_ttl ⟨[("k", .completed 0 sampleEvent)], []⟩ "k" 0
      sampleEvent 1000000 5 10 0 11 (by simp [alistKeys]) rfl).1,
   (completed_claim_ignores_ttl ⟨[("k", .completed 0 sampleEvent)], []⟩ "k" 0
      sampleEvent 1000000 5 10 0 11 (by simp [alistKeys]) rfl).2 (by decide)⟩

/- ## Error-budget breaker (`app/error_budget.rs`) -/

/-- Embeds `error_budget.rs` `ErrorBudgetParams`.  Durations are milliseconds. -/
structure ErrorBudgetParams where
  enabled : Bool
  success_threshold : ℚ
  minimum_requests : Nat
  sample_window : Nat
  freeze_duration : Nat
deriving Repr

/-- Embeds `error_budget.rs` `Observation`; `at_` embeds the Rust field `at`
(`at` is reserved in Lean). -/
structure Observation where
  at_ : Int
  success : Bool
deriving Repr

/-- Embeds `error_budget.rs` `FreezeReport`; `until_` embeds the Rust field
`until` (`until` is reserved in Lean). -/
structure FreezeReport where
  until_ : Int
  success_rate : ℚ
  sample_size : Nat
deriving Repr

/-- Embeds `error_budget.rs` `ErrorBudgetState`. -/
structure ErrorBudgetState where
  observations : List Observation
  frozen_until : Option Int
deriving Repr

/-- Embeds `ErrorBudget::purge_old`: pop observations from the front while they
are older than the sample window; `SystemTime::duration_since` fails for
observations in the future, which stops the purge (`map_or(false, ..)`). -/
def purge_old (window : Nat) (now : Int) : List Observation → List Observation
  | [] => []
  | obs :: rest =>
    if obs.at_ ≤ now ∧ now - obs.at_ > (window : Int) then purge_old window now rest
    else obs :: rest

/-- Embeds `ErrorBudget::current_success_rate`. -/
def current_success_rate (observations : List Observation) : ℚ × Nat :=
  if observations.isEmpty then (1, 0)
  else
    (((observations.filter (fun o => o.success)).length : ℚ)
        / (observations.length : ℚ),
      observations.length)

/-- Embeds `error_budget.rs` `RecordOutcome`. -/
inductive RecordOutcome where
  | none
  | freezeTriggered (report : FreezeReport)
  | freezeCleared
deriving Repr

/-- Embeds `ErrorBudget::admit`. -/
def ErrorBudget.admit_ (params : ErrorBudgetParams) (st : ErrorBudgetState)
    (now : Int) : Except FreezeReport Bool × ErrorBudgetState :=
  if params.enabled = false then (.ok false, st)
  else
    let st1 : ErrorBudgetState :=
      { st with observations := purge_old params.sample_window now st.observations }
    match st1.frozen_until with
    | some u =>
      if now < u then
        let rate := current_success_rate st1.observations
        (.error ⟨u, rate.1, rate.2⟩, st1)
      else (.ok true, { st1 with frozen_until := none })
    | none => (.ok false, st1)

/-- Embeds `ErrorBudget::record`. -/
def ErrorBudget.record (params : ErrorBudgetParams) (st : ErrorBudgetState)
    (success : Bool) (now : Int) : RecordOutcome × ErrorBudgetState :=
  if params.enabled = false then (.none, st)
  else
    let obs1 := purge_old params.sample_window now st.observations
    let thawed : Bool :=
      match st.frozen_until with
      | some u => decide (now ≥ u)
      | none => false
    let frozen1 : Option Int :=
      match st.frozen_until with
      | some u => if now ≥ u then none else some u
      | none => none
    let obs2 := obs1 ++ [⟨now, success⟩]
    if thawed then (.freezeCleared, ⟨obs2, frozen1⟩)
    else if frozen1.isSome then (.none, ⟨obs2, frozen1⟩)
    else
      let rate := current_success_rate obs2
      if rate.2 ≥ params.minimum_requests ∧ rate.1 < params.success_threshold then
        (.freezeTriggered ⟨now + params.freeze_duration, rate.1, rate.2⟩,
          ⟨obs2, some (now + params.freeze_duration)⟩)
      else (.none, ⟨obs2, frozen1⟩)

/-- C6: with the budget enabled and `frozen_until = some u`, `admit(now)`
returns `Err(FreezeReport)` for every `now < u` (the freeze stays in
place); for any `now ≥ u` it clears the freeze and returns `Ok(true)`
exactly once — any subsequent `admit` on the resulting state returns
`Ok(false)`. -/
theorem admit_freeze_window (params : ErrorBudgetParams) (st : ErrorBudgetState)
    (u now now2 : Int)
    (hen : params.enabled = true)
    (hfr : st.frozen_until = some u) :
    (now < u → ∃ report, (ErrorBudget.admit_ params st now).1 = .error report
        ∧ report.until_ = u
        ∧ (ErrorBudget.admit_ params st now).2.frozen_until = some u)
    ∧ (now ≥ u →
        (ErrorBudget.admit_ params st now).1 = .ok true
        ∧ (ErrorBudget.admit_ params st now).2.frozen_until = none
        ∧ (ErrorBudget.admit_ params (ErrorBudget.admit_ params st now).2 now2).1
            = .ok false) := by
  constructor
  · intro hlt
    refine ⟨⟨u, (current_success_rate (purge_old params.sample_window now st.observations)).1,
      (current_success_rate (purge_old params.sample_window now st.observations)).2⟩,
      ?_, rfl, ?_⟩
    · simp [ErrorBudget.admit_, hen, hfr, hlt]
    · simp [ErrorBudget.admit_, hen, hfr, hlt]
  · intro hge
    have hnlt : ¬ now < u := not_lt.2 hge
    have hadm : ErrorBudget.admit_ params st now =
        (.ok true,
          ⟨purge_old params.sample_window now st.observations, none⟩) := by
      simp [ErrorBudget.admit_, hen, hfr, hnlt]
    refine ⟨by rw [hadm], by rw [hadm], ?_⟩
    rw [hadm]
    simp [ErrorBudget.admit_, hen]

/-- Witness for `admit_freeze_window` at a concrete frozen budget. -/
theorem admit_freeze_window_witness :
    (∃ report,
        (ErrorBudget.admit_ ⟨true, 99/100, 3, 120000, 30000⟩ ⟨[], some 100⟩ 50).1
          = .error report
        ∧ report.until_ = 100
        ∧ (ErrorBudget.admit_ ⟨true, 99/100, 3, 120000, 30000⟩ ⟨[], some 100⟩ 50).2.frozen_until
            = some 100)
    ∧ (ErrorBudget.admit_ ⟨true, 99/100, 3, 120000, 30000⟩ ⟨[], some 100⟩ 100).1 = .ok true
    ∧ (ErrorBudget.admit_ ⟨true, 99/100, 3, 120000, 30000⟩ ⟨[], some 100⟩ 100).2.frozen_until
        = none
    ∧ (ErrorBudget.admit_ ⟨true, 99/100, 3, 120000, 30000⟩
        (ErrorBudget.admit_ ⟨true, 99/100, 3, 120000, 30000⟩ ⟨[], some 100⟩ 100).2 200).1
        = .ok false :=
  ⟨(admit_freeze_window ⟨true, 99/100, 3, 120000, 30000⟩ ⟨[], some 100⟩ 100 50 200
      rfl rfl).1 (by decide),
   (admit_freeze_window ⟨true, 99/100, 3, 120000, 30000⟩ ⟨[], some 100⟩ 100 100 200
      rfl rfl).2 (by decide)⟩

/-- C7: `record(success, now)` on an enabled budget whose freeze has
expired (`frozen_until = some u`, `now ≥ u`) clears the freeze, appends
the observation, and returns `FreezeCleared` without setting a new freeze
on that same call — unconditionally, in particular even when the new
sample would satisfy `sample_size ≥ minimum_requests` and
`success_rate < success_threshold`. -/
theorem record_thaw_no_refreeze (params : ErrorBudgetParams)
    (st : ErrorBudgetState) (u : Int) (success : Bool) (now : Int)
    (hen : params.enabled = true)
    (hfr : st.frozen_until = some u) (hge : now ≥ u) :
    ErrorBudget.record params st success now
      = (.freezeCleared,
          ⟨purge_old params.sample_window now st.observations ++ [⟨now, success⟩],
            none⟩) := by
  simp [ErrorBudget.record, hen, hfr, hge]

/-- Witness for `record_thaw_no_refreeze`: an expired freeze with a
failing observation appended; the new sample (1 request, success rate 0,
minimum_requests 1, threshold 99/100) would trip the breaker, yet the call
returns `FreezeCleared` and leaves `frozen_until` unset. -/
theorem record_thaw_no_refreeze_witness :
    ErrorBudget.record ⟨true, 99/100, 1, 120000, 30000⟩ ⟨[], some 100⟩ false 100
      = (.freezeCleared, ⟨[⟨100, false⟩], none⟩) :=
  record_thaw_no_refreeze ⟨true, 99/100, 1, 120000, 30000⟩ ⟨[], some 100⟩ 100
    false 100 rfl rfl (by decide)

/- ## Stream collector (`app/inspector_service.rs`) -/

/-- Embeds `rmcp` `CallToolResult` as used by the sources: tool content items,
optional structured payload, optional error flag, optional meta map. -/
structure CallToolResult where
  content : List JsonVal
  structured_content : Option JsonVal
  is_error : Option Bool
  meta : Option (List (String × JsonVal))
deriving Repr

/-- Embeds `StreamEvent`, read off its construction sites `progress_to_event`
and `result_to_event` in `app/inspector_service.rs`.  Progress magnitudes
(`f64` in the source) are carried opaquely as `ℚ`. -/
structure StreamEvent where
  event : String
  progress : Option ℚ
  total : Option ℚ
  message : Option String
  structured : Option JsonVal
  content : Option JsonVal
  error : Option String
deriving Repr

/-- Embeds `rmcp` `ProgressNotificationParam`. -/
structure ProgressNotificationParam where
  progress : ℚ
  total : Option ℚ
  message : Option String
deriving Repr

/-- Embeds `inspector_service.rs` `CallOutcome`. -/
structure CallOutcome where
  result : CallToolResult
  stream_events : Option (List StreamEvent)
deriving Repr

/-- Embeds `inspector_service.rs` `progress_to_event`. -/
def progress_to_event (p : ProgressNotificationParam) : StreamEvent :=
  { event := "chunk"
    progress := some p.progress
    total := p.total
    message := p.message
    structured := none
    content := none
    error := none }

/-- Embeds `inspector_service.rs` `result_to_event`. -/
def result_to_event (result : CallToolResult) : StreamEvent :=
  let is_error := result.is_error.getD false
  { event := if is_error then "error" else "final"
    progress := none
    total := none
    message := none
    structured := result.structured_content
    content := some (.arr result.content)
    error := if is_error then some "tool execution failed" else none }

/-- serde serialization of a `StreamEvent`. -/
def streamEventToJson (e : StreamEvent) : JsonVal :=
  .obj [("event", .str e.event),
        ("progress", (e.progress.map JsonVal.num).getD .null),
        ("total", (e.total.map JsonVal.num).getD .null),
        ("message", (e.message.map JsonVal.str).getD .null),
        ("structured", e.structured.getD .null),
        ("content", e.content.getD .null),
        ("error", (e.error.map JsonVal.str).getD .null)]

/-- serde snapshot of a `CallToolResult`
(`serde_json::to_value(&final_result)`). -/
def resultToJson (r : CallToolResult) : JsonVal :=
  .obj ([("content", .arr r.content),
         ("structuredContent", r.structured_content.getD .null),
         ("isError", (r.is_error.map JsonVal.bool).getD .null)]
    ++ optField "_meta" (r.meta.map (fun m => .obj m)))

/-- Embeds `InspectorService::call_with_stream`, applied to the progress
notifications drained from the subscription and to the final response. -/
def call_with_stream (progresses : List ProgressNotificationParam)
    (final_result : CallToolResult) : CallOutcome :=
  let events := progresses.map progress_to_event ++ [result_to_event final_result]
  let final_snapshot := resultToJson final_result
  let payload : JsonVal :=
    .obj [("mode", .str "stream"),
          ("events", .arr (events.map streamEventToJson)),
          ("final", final_snapshot)]
  let result := { final_result with structured_content := some payload }
  { result := result, stream_events := some events }

/-- C5: every completed streamed call yields a non-empty event list whose
last element is the terminal event (`"error"` exactly when the final
result flags `is_error`, `"final"` otherwise), all earlier elements are
`"chunk"`s, and the result's structured payload is replaced with
`{ mode: "stream", events, final: <snapshot of the original result> }`
while content and meta are preserved. -/
theorem stream_events_shape (progresses : List ProgressNotificationParam)
    (final_result : CallToolResult) :
    ∃ events,
      (call_with_stream progresses final_result).stream_events = some events
      ∧ events ≠ []
      ∧ events.getLast? = some (result_to_event final_result)
      ∧ (result_to_event final_result).event
          = (if final_result.is_error.getD false then "error" else "final")
      ∧ (∀ e ∈ events.dropLast, e.event = "chunk")
      ∧ (call_with_stream progresses final_result).result.structured_content
          = some (.obj [("mode", .str "stream"),
                        ("events", .arr (events.map streamEventToJson)),
                        ("final", resultToJson final_result)])
      ∧ (call_with_stream progresses final_result).result.content
          = final_result.content
      ∧ (call_with_stream progresses final_result).result.meta
          = final_result.meta := by
  refine ⟨progresses.map progress_to_event ++ [result_to_event final_result],
    rfl, by simp, ?_, rfl, ?_, rfl, rfl, rfl⟩
  · rw [List.getLast?_concat]
  · intro e he
    rw [List.dropLast_concat] at he
    obtain ⟨p, _, hpe⟩ := List.mem_map.1 he
    rw [← hpe]
    rfl

/- ## Tool registry and release track (`app/registry.rs`, `adapters/server.rs`) -/

/-- Modelled from the spec: the `ReleaseTrack` enum
(`RELEASE_TRACK ∈ {stable, canary, rollback}`) is referenced by
`adapters/server.rs` (`registry.release_track()`, `allows_inspector()`)
but its declaration is not among the shipped sources. -/
inductive ReleaseTrack where
  | stable
  | canary
  | rollback
deriving Repr, DecidableEq

/-- Modelled from the spec: `stable`/`canary` expose the full tool set and
allow inspector tools; `rollback` is the kill-switch. -/
def ReleaseTrack.allows_inspector : ReleaseTrack → Bool
  | .rollback => false
  | _ => true

/-- The five advertised tool names of `ToolRegistry::list`
(`app/registry.rs`). -/
def registryFullToolNames : List String :=
  ["help", "inspector_probe", "inspector_list_tools", "inspector_describe",
   "inspector_call"]

/-- Modelled from the spec: the release-track-aware `ToolRegistry::list`.
The shipped `app/registry.rs` returns the five tools unconditionally and
has no `release_track` field, yet `adapters/server.rs` calls
`self.registry.release_track()`; the track-aware registry is modelled from
the spec (`rollback` exposes only `help`) and from the repository's
`tests/release_track.rs`. -/
def ToolRegistry.list (track : ReleaseTrack) : List String :=
  if track.allows_inspector then registryFullToolNames else ["help"]

/-- Embeds `InspectorServer::list_tools` (`adapters/server.rs`): returns exactly
the registry's list. -/
def InspectorServer.list_tools (track : ReleaseTrack) : List String :=
  ToolRegistry.list track

/-- C3: while `RELEASE_TRACK=rollback`, every upstream `list_tools`
response contains `help` and no `inspector_*` tool. -/
theorem list_tools_rollback_only_help :
    "help" ∈ InspectorServer.list_tools ReleaseTrack.rollback
    ∧ ∀ t ∈ InspectorServer.list_tools ReleaseTrack.rollback,
        ¬ String.isPrefixOf "inspector_" t := by
  constructor
  · simp [InspectorServer.list_tools, ToolRegistry.list, ReleaseTrack.allows_inspector]
  · intro t ht
    simp [InspectorServer.list_tools, ToolRegistry.list,
      ReleaseTrack.allows_inspector] at ht
    subst ht
    decide

/- ## Outbox (`infra/outbox.rs`) -/

mutual

/-- Rendering of `JsonVal` to one JSON text line; models
`serde_json::to_string`. -/
def JsonVal.render : JsonVal → String
  | .null => "null"
  | .bool b => if b then "true" else "false"
  | .num q => toString q
  | .str s => "\"" ++ s ++ "\""
  | .arr items => "[" ++ renderItems items ++ "]"
  | .obj fields => "\x7b" ++ renderFields fields ++ "\x7d"

def renderItems : List JsonVal → String
  | [] => ""
  | [v] => v.render
  | v :: w :: rest => v.render ++ "," ++ renderItems (w :: rest)

def renderFields : List (String × JsonVal) → String
  | [] => ""
  | [kv] => "\"" ++ kv.1 ++ "\":" ++ kv.2.render
  | kv :: kw :: rest =>
    "\"" ++ kv.1 ++ "\":" ++ kv.2.render ++ "," ++ renderFields (kw :: rest)
end

/-- serde serialization of an `InspectionRunEvent` (UUIDs serialize as
strings). -/
def eventToJson (e : InspectionRunEvent) : JsonVal :=
  .obj ([("event_id", .str (toString e.event_id)),
         ("run_id", .str (toString e.run_id)),
         ("tool_name", .str e.tool_name),
         ("state", .str e.state),
         ("started_at", .str e.started_at),
         ("duration_ms", .num (e.duration_ms : ℚ))]
    ++ optField "target" (e.target.map targetToJson)
    ++ optField "request" e.request
    ++ optField "response" e.response
    ++ optField "error" (e.error.map .str)
    ++ optField "idempotency_key" (e.idempotency_key.map .str)
    ++ optField "external_reference" (e.external_reference.map .str))

/-- Embeds `serde_json::to_string(event)`: the serialized JSON line of an
event. -/
def serializeEvent (e : InspectionRunEvent) : String :=
  (eventToJson e).render

/-- The durable contents reachable from `Outbox::append`: the primary
backend's lines/rows and the DLQ JSONL lines. -/
structure OutboxState where
  primary : List String
  dlq : List String
deriving Repr, DecidableEq

/-- Embeds `Outbox::append`.  Whether each `write_line` / SQLite insert succeeds
is decided by the filesystem/database; those outcomes enter as
`primary_error` / `dlq_error` (`none` = the write succeeds).  On primary
failure the same line goes to the DLQ and the primary error is returned;
a DLQ failure is returned context-wrapped instead. -/
def Outbox.append (st : OutboxState) (event : InspectionRunEvent)
    (primary_error dlq_error : Option String) :
    Except String Unit × OutboxState :=
  let line := serializeEvent event
  match primary_error with
  | none => (.ok (), { st with primary := st.primary ++ [line] })
  | some primary_err =>
    match dlq_error with
    | none => (.error primary_err, { st with dlq := st.dlq ++ [line] })
    | some dlq_err =>
      (.error ("write outbox DLQ after primary failure: " ++ dlq_err), st)

/-- C8: if the primary outbox backend fails to persist, `append` returns
`Err` whatever the DLQ outcome; and when the DLQ write succeeds, the same
serialized JSON line for the event has been appended to the DLQ, the
primary is untouched, and the returned error is the primary backend's
failure. -/
theorem append_dlq_fallback (st : OutboxState) (event : InspectionRunEvent)
    (primary_err : String) :
    (∀ dlq_error, ∃ msg,
        (Outbox.append st event (some primary_err) dlq_error).1 = .error msg)
    ∧ (Outbox.append st event (some primary_err) none).1 = .error primary_err
    ∧ (Outbox.append st event (some primary_err) none).2.dlq
        = st.dlq ++ [serializeEvent event]
    ∧ (Outbox.append st event (some primary_err) none).2.primary
        = st.primary := by
  refine ⟨fun dlq_error => ?_, rfl, rfl, rfl⟩
  cases dlq_error with
  | none => exact ⟨primary_err, rfl⟩
  | some dlq_err =>
    exact ⟨"write outbox DLQ after primary failure: " ++ dlq_err, rfl⟩

/- ## `inspector_call` orchestration (`adapters/server.rs`) -/

/-- Embeds `domain/run.rs` `RunState`. -/
inductive RunState where
  | pending
  | processing
  | captured
  | failed
deriving Repr, DecidableEq

/-- Embeds `RunState::as_str`. -/
def RunState.as_str : RunState → String
  | .pending => "pending"
  | .processing => "processing"
  | .captured => "captured"
  | .failed => "failed"

/-- Embeds `infra/config.rs` `IdempotencyConflictPolicy`. -/
inductive IdempotencyConflictPolicy where
  | returnExisting
  | conflict409
deriving Repr, DecidableEq

/-- Embeds `rmcp` `CallToolResult::structured`. -/
def CallToolResult.structured (v : JsonVal) : CallToolResult :=
  { content := [], structured_content := some v, is_error := some false, meta := none }

/-- Embeds `rmcp` `CallToolResult::structured_error`. -/
def CallToolResult.structured_error (v : JsonVal) : CallToolResult :=
  { content := [], structured_content := some v, is_error := some true, meta := none }

/-- Embeds `adapters/server.rs` `freeze_payload`; the RFC3339 rendering of
`frozen_until` is carried opaquely via `toString`. -/
def freeze_payload (report : FreezeReport) : JsonVal :=
  .obj [("error", .str "error budget exhausted"),
        ("code", .str "ERROR_BUDGET_EXHAUSTED"),
        ("frozen_until", .str (toString report.until_)),
        ("success_rate", .num report.success_rate),
        ("sample_size", .num (report.sample_size : ℚ))]

/-- Embeds `adapters/server.rs` `extract_external_reference`. -/
def extract_external_reference (result : CallToolResult) : Option String :=
  result.meta.bind (fun meta =>
    (match alistLookup "externalReference" meta with
      | some v => some v
      | none => alistLookup "external_reference" meta).bind
      (fun v => match v with | .str s => some s | _ => none))

/-- Embeds `shared/types.rs` `CallTrace`, read off its construction in
`adapters/server.rs`. -/
structure CallTrace where
  event : InspectionRunEvent
  stream_enabled : Bool
  stream_events : Option (List StreamEvent)
  outbox_persisted : Bool
deriving Repr

/-- serde serialization of a `CallTrace`. -/
def callTraceToJson (t : CallTrace) : JsonVal :=
  .obj [("event", eventToJson t.event),
        ("stream_enabled", .bool t.stream_enabled),
        ("stream_events",
          (t.stream_events.map (fun evs => JsonVal.arr (evs.map streamEventToJson))).getD .null),
        ("outbox_persisted", .bool t.outbox_persisted)]

/-- Embeds `InspectorServer::attach_trace`. -/
def attach_trace (result : CallToolResult) (trace : CallTrace) : CallToolResult :=
  { result with
      meta := some (alistInsert "trace" (callTraceToJson trace) (result.meta.getD [])) }

/-- Embeds `InspectorServer::idempotency_conflict_response`. -/
def idempotency_conflict_response (existing : Option InspectionRunEvent)
    (message : String) : CallToolResult :=
  match existing with
  | some event =>
    CallToolResult.structured_error
      (.obj [("error", .str message), ("code", .str "IDEMPOTENCY_CONFLICT"),
             ("event", eventToJson event)])
  | none =>
    CallToolResult.structured_error
      (.obj [("error", .str message), ("code", .str "IDEMPOTENCY_CONFLICT")])

/-- Embeds `InspectorServer::return_existing_event`. -/
def return_existing_event (event : InspectionRunEvent) : CallToolResult :=
  CallToolResult.structured
    (.obj [("status", .str "duplicate"), ("event", eventToJson event)])

/-- Embeds `shared/utils.rs` `parse_command`: split the command line into words
(`shell_words::split`, modelled as whitespace splitting) and fail when the
command is empty. -/
def parse_command (cmd : String) : Except String (String × List String) :=
  match (cmd.splitOn " ").filter (fun w => w ≠ "") with
  | [] => .error "empty command"
  | program :: args => .ok (program, args)

/-- Embeds `InspectorServer::build_event`. -/
def build_event (run_id : Nat) (run_state : RunState) (request : CallRequest)
    (started_at : Int) (duration_ms : Nat) (target : Option TargetDescriptor)
    (response : Option JsonVal) (error : Option String)
    (external_reference : Option String) : InspectionRunEvent :=
  { event_id := 0
    run_id := run_id
    tool_name := request.tool_name
    state := run_state.as_str
    started_at := toString started_at
    duration_ms := duration_ms
    target := target
    request := some (callRequestToJson request)
    response := response
    error := error
    idempotency_key := request.idempotency_key
    external_reference := external_reference }

/-- The configuration and environment of the server for one
`inspector_call`: conflict policy, error-budget parameters, and the
`INSPECTOR_STDIO_CMD` environment variable. -/
structure ServerConfig where
  conflict_policy : IdempotencyConflictPolicy
  budget_params : ErrorBudgetParams
  inspector_stdio_cmd : Option String
deriving Repr

/-- The shared mutable state threaded through one `inspector_call`. -/
structure ServerState where
  idem : IdempotencyStore
  budget : ErrorBudgetState
  outbox : OutboxState
deriving Repr

/-- Embeds `set_target(key, descriptor)` when a key was claimed. -/
def set_target_if (claimed_key : Option String) (td : TargetDescriptor)
    (st : ServerState) : ServerState :=
  match claimed_key with
  | some key => { st with idem := st.idem.set_target key td }
  | none => st

/-- The `"inspector_call"` arm of `InspectorServer::call_tool`
(`adapters/server.rs`), after the release-track gate and argument
decoding.  Environmental inputs are explicit: `run_id` is the fresh run
UUID; `nowMono`/`started_at`/`admit_clock`/`record_clock` are the clocks
read during the call; `downstream` is the outcome of the resolved target
call (`call_http`/`call_sse`/`call_stdio`); `duration_ms` the elapsed
timer; `outbox_primary_error`/`outbox_dlq_error` the filesystem outcomes
of the outbox write. -/
def inspector_call (cfg : ServerConfig) (st : ServerState) (req : CallRequest)
    (run_id : Nat) (nowMono : Nat) (started_at : Int)
    (admit_clock record_clock : Int) (duration_ms : Nat)
    (downstream : Except String CallOutcome)
    (outbox_primary_error outbox_dlq_error : Option String) :
    CallToolResult × ServerState :=
  match req.external_reference.bind st.idem.find_external_ref with
  | some existing =>
    match cfg.conflict_policy with
    | .returnExisting => (return_existing_event existing, st)
    | .conflict409 =>
      (idempotency_conflict_response (some existing) "external reference conflict", st)
  | none =>
    let claimStep :
        Except (CallToolResult × ServerState) (Option String × ServerState) :=
      match req.idempotency_key with
      | some key =>
        let cres := st.idem.claim key nowMono
        match cres.1 with
        | .accepted =>
          .ok (some key, { st with idem := cres.2.start_run key run_id req nowMono })
        | .inFlight =>
          .error (idempotency_conflict_response none "idempotency key already in-flight",
            st)
        | .completed event =>
          match cfg.conflict_policy with
          | .returnExisting => .error (return_existing_event event, st)
          | .conflict409 =>
            .error (idempotency_conflict_response (some event) "idempotency conflict", st)
      | none => .ok (none, st)
    match claimStep with
    | .error out => out
    | .ok (claimed_key, st1) =>
      let st2 :=
        match claimed_key with
        | some key => { st1 with idem := st1.idem.mark_started key started_at }
        | none => st1
      let ares := ErrorBudget.admit_ cfg.budget_params st2.budget admit_clock
      match ares.1 with
      | .error report =>
        let st3 := { st2 with budget := ares.2 }
        let event := build_event run_id RunState.failed req started_at duration_ms
          none none (some "error budget exhausted") req.external_reference
        let ob := Outbox.append st3.outbox event outbox_primary_error outbox_dlq_error
        let st4 := { st3 with outbox := ob.2 }
        let st5 :=
          match req.external_reference with
          | some ext => { st4 with idem := st4.idem.record_external_ref ext event nowMono }
          | none => st4
        let st6 :=
          match claimed_key with
          | some key => { st5 with idem := st5.idem.complete key event nowMono }
          | none => st5
        (CallToolResult.structured_error (freeze_payload report), st6)
      | .ok _thawed =>
        let st3 := { st2 with budget := ares.2 }
        let targetStep :
            Except (CallToolResult × ServerState) (TargetDescriptor × ServerState) :=
          match req.http with
          | some http =>
            let td : TargetDescriptor := ⟨"http", none, some http.url, http.headers⟩
            .ok (td, set_target_if claimed_key td st3)
          | none =>
            match req.sse with
            | some sse =>
              let td : TargetDescriptor := ⟨"sse", none, some sse.url, sse.headers⟩
              .ok (td, set_target_if claimed_key td st3)
            | none =>
              match req.stdio with
              | some t =>
                let td : TargetDescriptor := ⟨"stdio", some t.command, none, none⟩
                .ok (td, set_target_if claimed_key td st3)
              | none =>
                match cfg.inspector_stdio_cmd with
                | some cmd =>
                  match parse_command cmd with
                  | .ok pa =>
                    let td : TargetDescriptor := ⟨"stdio", some pa.1, none, none⟩
                    .ok (td, set_target_if claimed_key td st3)
                  | .error e =>
                    .error (CallToolResult.structured_error (.obj [("error", .str e)]),
                      st3)
                | none =>
                  .error (CallToolResult.structured_error
                    (.obj [("error",
                      .str "INSPECTOR_STDIO_CMD env is required or pass 'stdio' target")]),
                    st3)
        match targetStep with
        | .error out => out
        | .ok (target_descriptor, st4) =>
          match downstream with
          | .ok outcome =>
            let ext2 :=
              match extract_external_reference outcome.result with
              | some m => some m
              | none => req.external_reference
            let event := build_event run_id RunState.captured req started_at
              duration_ms (some target_descriptor)
              (some (resultToJson outcome.result)) none ext2
            let ob := Outbox.append st4.outbox event outbox_primary_error
              outbox_dlq_error
            let outbox_persisted := match ob.1 with | .ok _ => true | .error _ => false
            let st5 := { st4 with outbox := ob.2 }
            let st6 :=
              match ext2 with
              | some ext =>
                { st5 with idem := st5.idem.record_external_ref ext event nowMono }
              | none => st5
            let st7 :=
              match claimed_key with
              | some key => { st6 with idem := st6.idem.complete key event nowMono }
              | none => st6
            let trace : CallTrace :=
              ⟨event, req.stream, outcome.stream_events, outbox_persisted⟩
            let result := attach_trace outcome.result trace
            let rres := ErrorBudget.record cfg.budget_params st7.budget true record_clock
            (result, { st7 with budget := rres.2 })
          | .error message =>
            let event := build_event run_id RunState.failed req started_at
              duration_ms (some target_descriptor) none (some message)
              req.external_reference
            let ob := Outbox.append st4.outbox event outbox_primary_error
              outbox_dlq_error
            let outbox_persisted := match ob.1 with | .ok _ => true | .error _ => false
            let st5 := { st4 with outbox := ob.2 }
            let st6 :=
              match req.external_reference with
              | some ext =>
                { st5 with idem := st5.idem.record_external_ref ext event nowMono }
              | none => st5
            let st7 :=
              match claimed_key with
              | some key => { st6 with idem := st6.idem.complete key event nowMono }
              | none => st6
            let err_result := CallToolResult.structured_error
              (.obj [("error", .str message)])
            let trace : CallTrace := ⟨event, req.stream, none, outbox_persisted⟩
            let result := attach_trace err_result trace
            let rres := ErrorBudget.record cfg.budget_params st7.budget false record_clock
            (result, { st7 with budget := rres.2 })

/-- When admission succeeds, the budget state left behind by
`ErrorBudget::admit` is the purged observations with no freeze (enabled),
or the untouched state (disabled). -/
theorem admit_ok_post_state (params : ErrorBudgetParams)
    (st : ErrorBudgetState) (now : Int)
    (h : ∃ thawed, (ErrorBudget.admit_ params st now).1 = .ok thawed) :
    (params.enabled = true →
      (ErrorBudget.admit_ params st now).2
        = ⟨purge_old params.sample_window now st.observations, none⟩)
    ∧ (params.enabled = false → (ErrorBudget.admit_ params st now).2 = st) := by
  obtain ⟨thawed, hok⟩ := h
  constructor
  · intro hen
    cases hfr : st.frozen_until with
    | none => simp [ErrorBudget.admit_, hen, hfr]
    | some u =>
      by_cases hlt : now < u
      · simp [ErrorBudget.admit_, hen, hfr, hlt] at hok
      · simp [ErrorBudget.admit_, hen, hfr, hlt]
  · intro hen
    simp [ErrorBudget.admit_, hen]

/-- C4 amended: an `inspector_call` that supplies none of `http`/`sse`/
`stdio` while `INSPECTOR_STDIO_CMD` is unset and that passes the
external-reference check (no reference, or an unmatched one), the
idempotency check (no key, or a key whose claim is freshly `Accepted`),
and the error-budget admission check (disabled budget, no freeze, or an
expired freeze) returns the structured validation error, and no
success/failure observation is recorded on the error budget: the final
budget is exactly the admission's post-state (the purged observations
with no freeze when enabled, the untouched state when disabled), the
outbox is untouched, and the idempotency store holds exactly the
`claim`/`begin`/`mark_started` effects — a freshly accepted key is left
`InFlight`.  The admission *check* itself, however, runs before target
validation (see the counterexample). -/
theorem inspector_call_validation_skips_budget (cfg : ServerConfig)
    (st : ServerState) (req : CallRequest) (run_id nowMono : Nat)
    (started_at admit_clock record_clock : Int) (duration_ms : Nat)
    (downstream : Except String CallOutcome) (poe doe : Option String)
    (hhttp : req.http = none) (hsse : req.sse = none) (hstdio : req.stdio = none)
    (henv : cfg.inspector_stdio_cmd = none)
    (hext : req.external_reference.bind st.idem.find_external_ref = none)
    (hkey : ∀ key, req.idempotency_key = some key →
      alistLookup key st.idem.records = none)
    (hadm_ok : ∃ thawed,
      (ErrorBudget.admit_ cfg.budget_params st.budget admit_clock).1
        = .ok thawed) :
    (inspector_call cfg st req run_id nowMono started_at admit_clock
        record_clock duration_ms downstream poe doe).1
      = CallToolResult.structured_error
          (.obj [("error",
            .str "INSPECTOR_STDIO_CMD env is required or pass 'stdio' target")])
    ∧ (inspector_call cfg st req run_id nowMono started_at admit_clock
        record_clock duration_ms downstream poe doe).2.budget
        = (ErrorBudget.admit_ cfg.budget_params st.budget admit_clock).2
    ∧ (cfg.budget_params.enabled = true →
        (inspector_call cfg st req run_id nowMono started_at admit_clock
          record_clock duration_ms downstream poe doe).2.budget
          = ⟨purge_old cfg.budget_params.sample_window admit_clock
              st.budget.observations, none⟩)
    ∧ (cfg.budget_params.enabled = false →
        (inspector_call cfg st req run_id nowMono started_at admit_clock
          record_clock duration_ms downstream poe doe).2.budget = st.budget)
    ∧ (inspector_call cfg st req run_id nowMono started_at admit_clock
        record_clock duration_ms downstream poe doe).2.outbox = st.outbox
    ∧ (inspector_call cfg st req run_id nowMono started_at admit_clock
        record_clock duration_ms downstream poe doe).2.idem
        = (match req.idempotency_key with
           | none => st.idem
           | some key =>
             ((st.idem.claim key nowMono).2.start_run key run_id req
               nowMono).mark_started key started_at) := by
  obtain ⟨thawed, hadm⟩ := hadm_ok
  have hpost :=
    admit_ok_post_state cfg.budget_params st.budget admit_clock ⟨thawed, hadm⟩
  have hout : ∀ P : CallToolResult × ServerState → Prop,
      (P (CallToolResult.structured_error
            (.obj [("error",
              .str "INSPECTOR_STDIO_CMD env is required or pass 'stdio' target")]),
          { st with
              idem := match req.idempotency_key with
                | none => st.idem
                | some key =>
                  ((st.idem.claim key nowMono).2.start_run key run_id req
                    nowMono).mark_started key started_at
              budget :=
                (ErrorBudget.admit_ cfg.budget_params st.budget admit_clock).2 })) →
      P (inspector_call cfg st req run_id nowMono started_at admit_clock
          record_clock duration_ms downstream poe doe) := by
    intro P hP
    cases hk : req.idempotency_key with
    | none =>
      have heq : inspector_call cfg st req run_id nowMono started_at admit_clock
          record_clock duration_ms downstream poe doe
          = (CallToolResult.structured_error
              (.obj [("error",
                .str "INSPECTOR_STDIO_CMD env is required or pass 'stdio' target")]),
             { st with budget :=
                (ErrorBudget.admit_ cfg.budget_params st.budget admit_clock).2 }) := by
        simp [inspector_call, hext, hk, hhttp, hsse, hstdio, henv, hadm]
      rw [heq]
      rw [hk] at hP
      exact hP
    | some key =>
      have hlook := hkey key hk
      have heq : inspector_call cfg st req run_id nowMono started_at admit_clock
          record_clock duration_ms downstream poe doe
          = (CallToolResult.structured_error
              (.obj [("error",
                .str "INSPECTOR_STDIO_CMD env is required or pass 'stdio' target")]),
             { st with
                idem := ((st.idem.claim key nowMono).2.start_run key run_id req
                  nowMono).mark_started key started_at
                budget :=
                  (ErrorBudget.admit_ cfg.budget_params st.budget admit_clock).2 }) := by
        simp [inspector_call, hext, hk, hhttp, hsse, hstdio, henv, hadm,
          IdempotencyStore.claim, hlook]
      rw [heq]
      rw [hk] at hP
      exact hP
  refine ⟨hout (fun out => out.1 = _) rfl,
    hout (fun out => out.2.budget = _) rfl,
    fun hen => (hout (fun out => out.2.budget = _) rfl).trans (hpost.1 hen),
    fun hen => (hout (fun out => out.2.budget = _) rfl).trans (hpost.2 hen),
    hout (fun out => out.2.outbox = _) rfl,
    hout (fun out => out.2.idem = _) rfl⟩

/-- A concrete configuration for the witness below: conflict_409 policy,
enabled budget, `INSPECTOR_STDIO_CMD` unset. -/
def c4cfg : ServerConfig :=
  ⟨.conflict409, ⟨true, 99/100, 3, 120000, 30000⟩, none⟩

/-- A concrete server state for the witness below: empty idempotency
store, one prior observation, an *expired* freeze (until 45). -/
def c4st : ServerState :=
  ⟨IdempotencyStore.mk_new, ⟨[⟨40, true⟩], some 45⟩, ⟨[], []⟩⟩

/-- A concrete target-less request with a fresh idempotency key. -/
def c4req : CallRequest :=
  ⟨"echo", .null, some "k", none, false, none, none, none⟩

/-- Witness for `inspector_call_validation_skips_budget`: a target-less
request carrying a *fresh* idempotency key, admitted through an *expired*
freeze (thawed), gets the validation error; the budget ends purged and
unfrozen with no observation appended, the outbox is untouched, and the
freshly accepted key is left `InFlight` with its begin/mark_started
metadata. -/
theorem inspector_call_validation_skips_budget_witness :
    (inspector_call c4cfg c4st c4req 1 7 0 50 60 5
        (.error "unreached") none none).1
      = CallToolResult.structured_error
          (.obj [("error",
            .str "INSPECTOR_STDIO_CMD env is required or pass 'stdio' target")])
    ∧ (inspector_call c4cfg c4st c4req 1 7 0 50 60 5
        (.error "unreached") none none).2.budget = ⟨[⟨40, true⟩], none⟩
    ∧ (inspector_call c4cfg c4st c4req 1 7 0 50 60 5
        (.error "unreached") none none).2.outbox = c4st.outbox
    ∧ (inspector_call c4cfg c4st c4req 1 7 0 50 60 5
        (.error "unreached") none none).2.idem
        = ⟨[("k", .inFlight ⟨7, some 1, some c4req, none, some 0⟩)], []⟩ := by
  obtain ⟨h1, h2, h3, h4, h5, h6⟩ :=
    inspector_call_validation_skips_budget c4cfg c4st c4req 1 7 0 50 60 5
      (.error "unreached") none none rfl rfl rfl rfl rfl
      (fun key hkeyEq => by cases Option.some.inj hkeyEq; rfl)
      ⟨true, rfl⟩
  refine ⟨h1, ?_, h5, ?_⟩
  · rw [h3 rfl]
    rfl
  · rw [h6]
    rfl

/-- C4 counterexample: with the error budget frozen, the very same
target-less request (no `http`/`sse`/`stdio`, `INSPECTOR_STDIO_CMD`
unset) is answered by the error-budget admission decision —
`ERROR_BUDGET_EXHAUSTED` — and not by the validation error: the admission
decision *is* applied to the request before target validation. -/
theorem inspector_call_admits_before_validation :
    (inspector_call ⟨.conflict409, ⟨true, 99/100, 3, 120000, 30000⟩, none⟩
        ⟨IdempotencyStore.mk_new, ⟨[], some 100⟩, ⟨[], []⟩⟩
        ⟨"echo", .null, none, none, false, none, none, none⟩
        1 0 0 50 60 5 (.error "unreached") none none).1
      = CallToolResult.structured_error (freeze_payload ⟨100, 1, 0⟩)
    ∧ (inspector_call ⟨.conflict409, ⟨true, 99/100, 3, 120000, 30000⟩, none⟩
        ⟨IdempotencyStore.mk_new, ⟨[], some 100⟩, ⟨[], []⟩⟩
        ⟨"echo", .null, none, none, false, none, none, none⟩
        1 0 0 50 60 5 (.error "unreached") none none).1
      ≠ CallToolResult.structured_error
          (.obj [("error",
            .str "INSPECTOR_STDIO_CMD env is required or pass 'stdio' target")]) := by
  refine ⟨rfl, ?_⟩
  intro h
  have hfreeze : (inspector_call ⟨.conflict409, ⟨true, 99/100, 3, 120000, 30000⟩, none⟩
      ⟨IdempotencyStore.mk_new, ⟨[], some 100⟩, ⟨[], []⟩⟩
      ⟨"echo", .null, none, none, false, none, none, none⟩
      1 0 0 50 60 5 (.error "unreached") none none).1
      = CallToolResult.structured_error (freeze_payload ⟨100, 1, 0⟩) := rfl
  rw [hfreeze] at h
  have h2 := congrArg
    (fun r => match r.structured_content with
      | some (JsonVal.obj fs) => fs.length
      | _ => 0) h
  simp [CallToolResult.structured_error, freeze_payload] at h2
